import Mathlib

/-!
Shallow embedding of the resilient-access layer of Hardware Sentry.

Embedded from the repository sources:
  * `src/lib/analytics.ts` (`recordScanEvent`, `getAnalyticsStats`)
  * `src/app/api/health/route.ts` (`GET`)

Components whose implementation files are not part of the source tree
(circuit breaker, retry policy, rate limiter, change detector, scan lock)
are modelled from the specification, as marked on each definition.

JavaScript numbers are modelled as rationals (`ℚ`), timestamps as `ℕ`
milliseconds.  A Redis sorted set is modelled as a list of
(score, member) pairs kept in ascending score order; a Redis list with
`lpush` keeps its newest element at the head.
-/

/-- JavaScript `Math.round`: rounds half toward positive infinity. -/
def jsRound (q : ℚ) : ℤ := ⌊q + 1/2⌋

namespace Analytics

/-- One recorded scan event (`ScanEvent` in `src/lib/analytics.ts`). -/
structure ScanEvent where
  sku : String
  success : Bool
  cached : Bool
  responseTime : ℚ
  timestamp : ℕ
  vendorCount : Option ℕ
  errorMessage : Option String
deriving DecidableEq, Repr

/-- A member of the `analytics:scans:recent` sorted set: either a
well-formed serialised `ScanEvent` (which `JSON.parse` recovers) or a
malformed entry (which `JSON.parse` rejects and `getAnalyticsStats`
skips). -/
inductive REntry where
  | valid (e : ScanEvent)
  | invalid (s : String)
deriving DecidableEq, Repr

/-- Event recovered from a sorted-set member, `none` for a malformed one. -/
def entryEvent : REntry → Option ScanEvent
  | .valid e => some e
  | .invalid _ => none

/-- Insert a (score, member) pair into a score-ascending list, after any
entries with the same score (stable insertion). -/
def zinsert {α : Type} (x : ℕ × α) : List (ℕ × α) → List (ℕ × α)
  | [] => [x]
  | y :: ys => if x.1 < y.1 then x :: y :: ys else y :: zinsert x ys

/-- Redis `ZADD key score member`: a member occurs at most once, so any
previous occurrence is replaced, then the pair is inserted in score order. -/
def zadd {α : Type} [DecidableEq α] (l : List (ℕ × α)) (score : ℕ) (member : α) :
    List (ℕ × α) :=
  zinsert (score, member) (l.filter (fun p => p.2 ≠ member))

/-- Redis `ZINCRBY key 1 member`: bump the member's score by one (from 0 if
absent) and re-insert it in score order. -/
def zincrby {α : Type} [DecidableEq α] (l : List (ℕ × α)) (member : α) :
    List (ℕ × α) :=
  let old := ((l.find? (fun p => p.2 = member)).map Prod.fst).getD 0
  zinsert (old + 1, member) (l.filter (fun p => p.2 ≠ member))

/-- Redis `ZREMRANGEBYRANK key 0 -51`: drop the lowest-ranked entries,
keeping only the 50 highest-ranked ones.  When the set holds at most 50
entries the range is empty and nothing is removed, which over `ℕ`
subtraction is the same `drop` expression. -/
def zremrangebyrankTo50 {α : Type} (l : List α) : List α :=
  l.drop (l.length - 50)

/-- Score/member consistency of one recent-scan entry: a well-formed
member is stored under its own timestamp as score. -/
def entryWF (p : ℕ × REntry) : Bool :=
  match p.2 with
  | .valid e => p.1 == e.timestamp
  | .invalid _ => true

/-- Aggregate analytics state: the values stored under the eight
`ANALYTICS_KEYS` Redis keys of `src/lib/analytics.ts`.  A response-time
sample is `none` when the stored value is non-numeric. -/
structure AnalyticsState where
  scanCount : ℕ
  scanSuccess : ℕ
  scanFailure : ℕ
  cacheHits : ℕ
  cacheMisses : ℕ
  responseTimes : List (Option ℚ)
  skuPopularity : List (ℕ × String)
  recentScans : List (ℕ × REntry)
deriving Repr

/-- The pure effect of the write pipeline of `recordScanEvent`
(`src/lib/analytics.ts:67-108`) on the analytics state: counter
increments, `ZINCRBY` on SKU popularity, `LPUSH`+`LTRIM 0 99` on response
times, `ZADD`+`ZREMRANGEBYRANK 0 -51` on recent scans. -/
def applyEvent (st : AnalyticsState) (e : ScanEvent) : AnalyticsState where
  scanCount := st.scanCount + 1
  scanSuccess := if e.success then st.scanSuccess + 1 else st.scanSuccess
  scanFailure := if e.success then st.scanFailure else st.scanFailure + 1
  cacheHits := if e.cached then st.cacheHits + 1 else st.cacheHits
  cacheMisses := if e.cached then st.cacheMisses else st.cacheMisses + 1
  responseTimes := (some e.responseTime :: st.responseTimes).take 100
  skuPopularity := zincrby st.skuPopularity e.sku
  recentScans := zremrangebyrankTo50 (zadd st.recentScans e.timestamp (.valid e))

/-- Behaviour of the backing store as seen by the analytics module:
`unconfigured` models missing Redis environment variables
(`getRedisClient` returns `null`), `ok` a store whose operations succeed,
`failing` a store that raises on every operation. -/
inductive StoreBehavior where
  | unconfigured
  | ok (st : AnalyticsState)
  | failing (st : AnalyticsState)

/-- Execution of the batched pipeline against the store: raises (returns
`Except.error`) precisely when the store is failing. -/
def execPipeline (raises : Bool) (st : AnalyticsState) (e : ScanEvent) :
    Except String AnalyticsState :=
  if raises then .error "store connection failure" else .ok (applyEvent st e)

/-- The function `recordScanEvent` of `src/lib/analytics.ts:62-113`: returns
early when the store is unconfigured, otherwise runs the write pipeline
inside a try/catch which logs and swallows any store error.  The outer
`Except` is the function's own boundary: an `Except.error` result would
mean an error escaped `recordScanEvent` to the caller. -/
def recordScanEvent (b : StoreBehavior) (e : ScanEvent) :
    Except String StoreBehavior :=
  match b with
  | .unconfigured => .ok .unconfigured
  | .ok st =>
    match execPipeline false st e with
    | .ok st2 => .ok (.ok st2)
    | .error _ => .ok (.ok st)
  | .failing st =>
    match execPipeline true st e with
    | .ok st2 => .ok (.failing st2)
    | .error _ => .ok (.failing st)

/-- Aggregate statistics returned by `getAnalyticsStats`
(`AnalyticsStats` in `src/lib/analytics.ts`). -/
structure AnalyticsStats where
  totalScans : ℕ
  successfulScans : ℕ
  failedScans : ℕ
  successRate : ℚ
  cacheHitRate : ℚ
  averageResponseTime : ℚ
  popularSkus : List (String × ℕ)
  recentActivity : List ScanEvent
  period : String
deriving DecidableEq, Repr

/-- The all-zero statistics object returned when the store is unavailable
(`src/lib/analytics.ts:123-133` and `223-233`). -/
def emptyStats : AnalyticsStats where
  totalScans := 0
  successfulScans := 0
  failedScans := 0
  successRate := 0
  cacheHitRate := 0
  averageResponseTime := 0
  popularSkus := []
  recentActivity := []
  period := "all-time"

/-- The aggregate computation of `getAnalyticsStats`
(`src/lib/analytics.ts:136-218`) on a successfully fetched state: rates as
percentages rounded to one decimal, average response time as the rounded
mean of the numeric samples among the first 100 stored ones, top-10 SKUs
by score descending (`ZRANGE 0 9 REV WITHSCORES`, skipping falsy i.e.
empty SKU names), and the 50 newest recent-scan members
(`ZRANGE 0 49 REV`), skipping entries `JSON.parse` rejects. -/
def computeStats (st : AnalyticsState) : AnalyticsStats :=
  let total := st.scanCount
  let successRate : ℚ :=
    if 0 < total then ((st.scanSuccess : ℚ) / total) * 100 else 0
  let hitDen := st.cacheHits + st.cacheMisses
  let cacheHitRate : ℚ :=
    if 0 < hitDen then ((st.cacheHits : ℚ) / hitDen) * 100 else 0
  let times := (st.responseTimes.take 100).filterMap id
  let averageResponseTime : ℚ :=
    if 0 < times.length then times.sum / times.length else 0
  { totalScans := total
    successfulScans := st.scanSuccess
    failedScans := st.scanFailure
    successRate := (jsRound (successRate * 10) : ℚ) / 10
    cacheHitRate := (jsRound (cacheHitRate * 10) : ℚ) / 10
    averageResponseTime := (jsRound averageResponseTime : ℚ)
    popularSkus :=
      ((st.skuPopularity.reverse.take 10).filter (fun p => p.2 ≠ "")).map
        (fun p => (p.2, p.1))
    recentActivity :=
      (st.recentScans.reverse.take 50).filterMap (fun p => entryEvent p.2)
    period := "all-time" }

/-- The function `getAnalyticsStats` of `src/lib/analytics.ts:118-235`:
empty statistics when the store is unconfigured, the computed aggregate on
a working store, and — through the catch branch — empty statistics again
when any store read raises. -/
def getAnalyticsStats : StoreBehavior → AnalyticsStats
  | .unconfigured => emptyStats
  | .ok st => computeStats st
  | .failing _ => emptyStats

/-- Well-formedness of the stored aggregate: both sorted sets are in
ascending score order and every well-formed recent-scan member sits under
its own timestamp — the shape `recordScanEvent` writes produce. -/
def StateWF (st : AnalyticsState) : Prop :=
  st.skuPopularity.Sorted (fun a b => a.1 ≤ b.1) ∧
  st.recentScans.Sorted (fun a b => a.1 ≤ b.1) ∧
  ∀ p ∈ st.recentScans, entryWF p = true

/-- A concrete well-formed event used to exercise the model. -/
def sampleEventA : ScanEvent where
  sku := "pi5"
  success := true
  cached := false
  responseTime := 7
  timestamp := 1
  vendorCount := none
  errorMessage := none

/-- A second concrete event, newer than `sampleEventA`. -/
def sampleEventB : ScanEvent where
  sku := "jetson"
  success := false
  cached := true
  responseTime := 9
  timestamp := 4
  vendorCount := some 3
  errorMessage := some "timeout"

/-- A concrete well-formed aggregate state. -/
def sampleState : AnalyticsState where
  scanCount := 2
  scanSuccess := 1
  scanFailure := 1
  cacheHits := 1
  cacheMisses := 1
  responseTimes := [some 5, none]
  skuPopularity := [(2, "pi5"), (3, "jetson")]
  recentScans := [(1, .valid sampleEventA), (4, .valid sampleEventB)]

/-- A concrete aggregate state exhibiting the percentage scaling, the
rounding of the average, and the dropping of an empty SKU name. -/
def mixedState : AnalyticsState where
  scanCount := 2
  scanSuccess := 1
  scanFailure := 1
  cacheHits := 1
  cacheMisses := 1
  responseTimes := [some (5/2)]
  skuPopularity := [(5, "")]
  recentScans := []

/-- A concrete full state: 100 stored response-time samples and 50 stored
recent scans. -/
def fullState : AnalyticsState where
  scanCount := 150
  scanSuccess := 150
  scanFailure := 0
  cacheHits := 0
  cacheMisses := 150
  responseTimes := List.replicate 100 (some 1)
  skuPopularity := [(150, "pi5")]
  recentScans := (List.range 50).map (fun i => (i, .invalid (toString i)))

end Analytics

namespace Health

/-- The three environment variables the health route inspects; `none`
models an unset variable. -/
structure Env where
  tinyfishApiKey : Option String
  upstashRedisRestUrl : Option String
  upstashRedisRestToken : Option String

/-- JavaScript truthiness of an environment variable: unset and empty
strings are falsy. -/
def truthy : Option String → Bool
  | none => false
  | some s => s ≠ ""

/-- Body of the health response (the fields of the `health` object of
`src/app/api/health/route.ts` that depend on the environment). -/
structure HealthBody where
  status : String
  tinyfishConfigured : Bool
  tinyfishStatus : String
  redisConfigured : Bool
  redisStatus : String
deriving DecidableEq, Repr

/-- The handler `GET` of `src/app/api/health/route.ts:11-46` as a pure
function of the configuration environment, returning the HTTP status code
and the response body. -/
def healthGET (env : Env) : ℕ × HealthBody :=
  let tf := truthy env.tinyfishApiKey
  let rd := truthy env.upstashRedisRestUrl && truthy env.upstashRedisRestToken
  let allConfigured := tf && rd
  (if allConfigured then 200 else 503,
   { status := if allConfigured then "ok" else "degraded"
     tinyfishConfigured := tf
     tinyfishStatus := if tf then "ready" else "not_configured"
     redisConfigured := rd
     redisStatus := if rd then "ready" else "not_configured" })

end Health

namespace CircuitBreaker

/-- Modelled from the spec: `lib/circuitBreaker.ts` is absent from the
source tree; the three breaker states CLOSED, OPEN, HALF_OPEN of spec
§4.2. -/
inductive CBState where
  | Closed
  | Open
  | HalfOpen
deriving DecidableEq, Repr

/-- Modelled from the spec: breaker configuration with the spec defaults
failureThreshold 3, successThreshold 2, recoveryTimeout 30 s. -/
structure Config where
  failureThreshold : ℕ := 3
  successThreshold : ℕ := 2
  recoveryTimeout : ℕ := 30000

/-- Modelled from the spec: the mutable breaker fields of spec §3
(CircuitBreaker state). -/
structure Breaker where
  state : CBState
  consecutiveFailures : ℕ
  consecutiveSuccesses : ℕ
  openedAt : ℕ
  totalCalls : ℕ
  totalFailures : ℕ
deriving DecidableEq, Repr

/-- Modelled from the spec: the process-start breaker instance, CLOSED
with zeroed counters. -/
def initial : Breaker where
  state := .Closed
  consecutiveFailures := 0
  consecutiveSuccesses := 0
  openedAt := 0
  totalCalls := 0
  totalFailures := 0

/-- Modelled from the spec: outcome of one guarded call — the wrapped
operation succeeded, the wrapped operation failed, or the call was
fast-rejected with the distinct circuit-open error. -/
inductive Outcome where
  | success
  | failure
  | rejected
deriving DecidableEq, Repr

/-- Modelled from the spec: cumulative-metrics update applied on every
invoked call (`totalCalls`, and `totalFailures` on a failed outcome). -/
def bumpMetrics (cb : Breaker) (opSucceeds : Bool) : Breaker :=
  { cb with
    totalCalls := cb.totalCalls + 1
    totalFailures := if opSucceeds then cb.totalFailures else cb.totalFailures + 1 }

/-- Modelled from the spec: state update after the wrapped operation ran,
per spec §4.2.  In CLOSED a success resets `consecutiveFailures`, a
failure increments it and opens the breaker (recording `openedAt = now`)
once it reaches the threshold.  In HALF_OPEN each success increments
`consecutiveSuccesses`, closing the breaker and resetting both counters at
the threshold; any failure reopens the breaker and resets `openedAt`. -/
def afterInvoke (cfg : Config) (cb : Breaker) (now : ℕ) (opSucceeds : Bool) :
    Breaker :=
  match cb.state with
  | .Closed =>
    if opSucceeds then { cb with consecutiveFailures := 0 }
    else
      let cf := cb.consecutiveFailures + 1
      if cfg.failureThreshold ≤ cf then
        { cb with state := .Open, consecutiveFailures := cf, openedAt := now }
      else { cb with consecutiveFailures := cf }
  | .HalfOpen =>
    if opSucceeds then
      let cs := cb.consecutiveSuccesses + 1
      if cfg.successThreshold ≤ cs then
        { cb with state := .Closed, consecutiveFailures := 0,
                  consecutiveSuccesses := 0 }
      else { cb with consecutiveSuccesses := cs }
    else
      { cb with state := .Open, openedAt := now, consecutiveSuccesses := 0 }
  | .Open => cb

/-- Modelled from the spec: one call through the breaker at time `now`,
where `opSucceeds` is what the wrapped operation would return if invoked.
Returns the new breaker state, the call outcome, and whether the wrapped
operation was actually invoked.  While OPEN and before the recovery
deadline the call is rejected without invocation; once
`now − openedAt ≥ recoveryTimeout` the state moves to HALF_OPEN before the
call executes (spec §4.2). -/
def execCall (cfg : Config) (cb : Breaker) (now : ℕ) (opSucceeds : Bool) :
    Breaker × Outcome × Bool :=
  match cb.state with
  | .Open =>
    if cfg.recoveryTimeout ≤ now - cb.openedAt then
      let half := { cb with state := CBState.HalfOpen, consecutiveSuccesses := 0 }
      (afterInvoke cfg (bumpMetrics half opSucceeds) now opSucceeds,
       if opSucceeds then .success else .failure, true)
    else
      ({ cb with totalCalls := cb.totalCalls + 1 }, .rejected, false)
  | _ =>
    (afterInvoke cfg (bumpMetrics cb opSucceeds) now opSucceeds,
     if opSucceeds then .success else .failure, true)

/-- Modelled from the spec: run a sequence of calls, each given as
(timestamp, wrapped-operation result). -/
def runCalls (cfg : Config) (cb : Breaker) : List (ℕ × Bool) → Breaker
  | [] => cb
  | (now, s) :: rest => runCalls cfg (execCall cfg cb now s).1 rest

/-- Modelled from the spec: `n` consecutive failing calls at time 0
starting from the initial breaker. -/
def failN (cfg : Config) : ℕ → Breaker
  | 0 => initial
  | n + 1 => (execCall cfg (failN cfg n) 0 false).1

end CircuitBreaker

namespace Retry

/-- Modelled from the spec: error classification of spec §4.1 —
retryable (network error, timeout, 5xx-equivalent) versus non-retryable
(4xx-equivalent, validation). -/
inductive RetryErr where
  | retryable (msg : String)
  | nonRetryable (msg : String)
deriving DecidableEq, Repr

/-- Modelled from the spec: the retryability test applied after a failed
attempt. -/
def RetryErr.isRetryable : RetryErr → Bool
  | .retryable _ => true
  | .nonRetryable _ => false

/-- Modelled from the spec: trailing attempts of `withRetry`.  `attempt`
is the 1-based index of the attempt about to run and `rem` the number of
further attempts allowed after it.  A success returns immediately, a
non-retryable error propagates immediately, and the error of the final
attempt propagates verbatim.  The second component counts invocations of
the operation. -/
def withRetryGo {α : Type} (op : ℕ → Except RetryErr α) :
    ℕ → ℕ → Except RetryErr α × ℕ
  | attempt, 0 => (op attempt, attempt)
  | attempt, rem + 1 =>
    match op attempt with
    | .ok a => (.ok a, attempt)
    | .error e =>
      if e.isRetryable then withRetryGo op (attempt + 1) rem
      else (.error e, attempt)

/-- Modelled from the spec: `withRetry(operation, {maxAttempts})` of spec
§4.1, with the operation indexed by attempt number so that per-attempt
behaviour can be expressed.  Returns the final result together with the
number of times the operation was invoked. -/
def withRetry {α : Type} (op : ℕ → Except RetryErr α) (maxAttempts : ℕ) :
    Except RetryErr α × ℕ :=
  withRetryGo op 1 (maxAttempts - 1)

end Retry

namespace RateLimiter

/-- Modelled from the spec: one `isAllowed(clientId)` check of spec §4.3
against the client's timestamp history.  Timestamps older than
`now − windowMs` are discarded; if fewer than `maxRequests` remain the
request is admitted and `now` recorded, otherwise it is rejected.
Returns the decision and the client's updated history. -/
def isAllowed (windowMs maxRequests : ℕ) (history : List ℕ) (now : ℕ) :
    Bool × List ℕ :=
  let fresh := history.filter (fun t => now - windowMs ≤ t)
  if fresh.length < maxRequests then (true, now :: fresh) else (false, fresh)

/-- Modelled from the spec: a sequence of checks for one client, threading
the history; returns the list of decisions and the final history. -/
def runChecks (windowMs maxRequests : ℕ) (history : List ℕ) :
    List ℕ → List Bool × List ℕ
  | [] => ([], history)
  | now :: rest =>
    let r := isAllowed windowMs maxRequests history now
    let tail := runChecks windowMs maxRequests r.2 rest
    (r.1 :: tail.1, tail.2)

end RateLimiter

namespace ChangeDetector

/-- Modelled from the spec: PriceChange of spec §3; `percentChange` is
omitted when the old price is 0. -/
structure PriceChange where
  delta : ℚ
  percentChange : Option ℚ
  isSignificant : Bool
deriving DecidableEq, Repr

/-- Modelled from the spec: StockChange of spec §3. -/
structure StockChange where
  changed : Bool
  previous : Bool
  current : Bool
deriving DecidableEq, Repr

/-- Modelled from the spec: the per-vendor change annotation attached by
the Change Detector (spec §4.6). -/
structure VendorChanges where
  price : Option PriceChange
  stock : Option StockChange
deriving DecidableEq, Repr

/-- Modelled from the spec: VendorResult of spec §3. -/
structure VendorResult where
  name : String
  url : String
  price : Option ℚ
  currency : String
  inStock : Bool
  stockLevel : String
  notes : Option String
  changes : Option VendorChanges
deriving DecidableEq, Repr

/-- Modelled from the spec: ScanResult of spec §3, with per-vendor failure
descriptions as strings. -/
structure ScanResult where
  sku : String
  scannedAt : ℕ
  vendors : List VendorResult
  cached : Bool
  stale : Bool
  errors : List String
deriving DecidableEq, Repr

/-- Modelled from the spec: the PriceChange formula of spec §3 —
`delta = newPrice − oldPrice`, `percentChange = delta / oldPrice × 100`
(omitted when the old price is 0), and
`isSignificant = abs(delta) > 1.0 OR abs(percentChange) > 2.0`. -/
def computePriceChange (oldPrice newPrice : ℚ) : PriceChange :=
  let delta := newPrice - oldPrice
  let pct : Option ℚ :=
    if oldPrice = 0 then none else some (delta / oldPrice * 100)
  { delta := delta
    percentChange := pct
    isSignificant :=
      decide (1 < |delta|) ||
        (match pct with
         | some p => decide (2 < |p|)
         | none => false) }

/-- Modelled from the spec: annotation of one current vendor against the
previous scan (spec §4.6) — match by name; a PriceChange when both prices
are non-null, a StockChange when `inStock` differs; nothing attached when
the vendor is new or neither change applies. -/
def annotateVendor (prev : ScanResult) (v : VendorResult) : VendorResult :=
  match prev.vendors.find? (fun p => p.name = v.name) with
  | none => v
  | some p =>
    let priceChange : Option PriceChange :=
      match p.price, v.price with
      | some oldP, some newP => some (computePriceChange oldP newP)
      | _, _ => none
    let stockChange : Option StockChange :=
      if p.inStock ≠ v.inStock then
        some { changed := true, previous := p.inStock, current := v.inStock }
      else none
    if priceChange.isNone && stockChange.isNone then v
    else { v with changes := some { price := priceChange, stock := stockChange } }

/-- Modelled from the spec: the pure function
`detectChanges(current, previous)` of spec §4.6 — `current` unchanged when
`previous` is absent, otherwise every current vendor annotated against
`previous`. -/
def detectChanges (current : ScanResult) (previous : Option ScanResult) :
    ScanResult :=
  match previous with
  | none => current
  | some prev => { current with vendors := current.vendors.map (annotateVendor prev) }

/-- Modelled from the spec: a concrete vendor observation at price 100. -/
def vendorAt100 : VendorResult where
  name := "Pimoroni"
  url := "https://shop.example/pi5"
  price := some 100
  currency := "GBP"
  inStock := true
  stockLevel := "In stock"
  notes := none
  changes := none

/-- Modelled from the spec: the same vendor observed at price 103.50. -/
def vendorAt103p5 : VendorResult where
  name := "Pimoroni"
  url := "https://shop.example/pi5"
  price := some (207/2)
  currency := "GBP"
  inStock := true
  stockLevel := "In stock"
  notes := none
  changes := none

/-- Modelled from the spec: a previous scan containing `vendorAt100`. -/
def prevScan : ScanResult where
  sku := "pi5"
  scannedAt := 0
  vendors := [vendorAt100]
  cached := false
  stale := false
  errors := []

end ChangeDetector

namespace ScanLock

/-- Modelled from the spec: the lock store as a list of (key, value)
pairs, backed by a key-value store whose single-key operations are
atomic. -/
def LockStore : Type := List (String × String)

/-- Modelled from the spec: the atomic `setIfAbsent(key, value, ttl)`
primitive of spec §6 (Redis `SET NX`): fails when the key is present,
otherwise stores the pair.  Being a single atomic store operation, one
whole call is one step of any interleaving. -/
def setIfAbsent (store : LockStore) (k v : String) : Bool × LockStore :=
  if store.any (fun p => p.1 = k) then (false, store) else (true, (k, v) :: store)

/-- Modelled from the spec: the per-SKU lock key (`scan:{sku}:lock` in the
backend documentation, written here with concatenation). -/
def lockKey (sku : String) : String := "scan:" ++ sku ++ ":lock"

/-- Modelled from the spec: `acquire(sku, ttl) -> bool` of spec §4.5 as
atomic set-if-absent on the SKU's lock key. -/
def acquire (store : LockStore) (sku : String) : Bool × LockStore :=
  setIfAbsent store (lockKey sku) "1"

/-- Modelled from the spec: two concurrent `acquire(sku)` calls A and B
against an empty lock store.  Each call is one atomic step, so a schedule
is just the order of the two steps; `aFirst` selects it.  Returns
(A's result, B's result). -/
def twoAcquires (sku : String) (aFirst : Bool) : Bool × Bool :=
  if aFirst then
    let ra := acquire [] sku
    let rb := acquire ra.2 sku
    (ra.1, rb.1)
  else
    let rb := acquire [] sku
    let ra := acquire rb.2 sku
    (ra.1, rb.1)

end ScanLock

/-!  Theorems.  Each claim of the specification is settled by one theorem
below; shared helper lemmas precede them. -/

/-- Rounding zero gives zero. -/
theorem jsRound_zero : jsRound 0 = 0 := by
  norm_num [jsRound]

/-- C1: for every `ScanEvent` and every behaviour of the backing store —
a missing configuration, a working store, or a store that raises on every
operation — `recordScanEvent` returns normally (`Except.ok`), so no error
crosses its boundary and the caller's response is unaffected. -/
theorem recordScanEvent_never_raises (b : Analytics.StoreBehavior)
    (e : Analytics.ScanEvent) :
    ∃ b2, Analytics.recordScanEvent b e = Except.ok b2 := by
  cases b <;> exact ⟨_, rfl⟩

/-- C9: `getAnalyticsStats` never propagates a store failure: with an
unconfigured store, and with a store whose reads raise (any state), it
returns the all-zero aggregate with empty lists and period `all-time`. -/
theorem getAnalyticsStats_degrades (st : Analytics.AnalyticsState) :
    Analytics.getAnalyticsStats (.failing st) =
      { totalScans := 0, successfulScans := 0, failedScans := 0,
        successRate := 0, cacheHitRate := 0, averageResponseTime := 0,
        popularSkus := [], recentActivity := [], period := "all-time" } ∧
    Analytics.getAnalyticsStats .unconfigured =
      { totalScans := 0, successfulScans := 0, failedScans := 0,
        successRate := 0, cacheHitRate := 0, averageResponseTime := 0,
        popularSkus := [], recentActivity := [], period := "all-time" } :=
  ⟨rfl, rfl⟩

/-- C10 counterexample: an environment in which all three variables are
set (to the empty string for the TinyFish key) yet the handler answers
503 "degraded", refuting "200 with status ok if and only if the TinyFish
API key and both Redis variables are set". -/
theorem healthGET_counterexample :
    (Health.Env.mk (some "") (some "u") (some "t")).tinyfishApiKey.isSome = true ∧
    (Health.Env.mk (some "") (some "u") (some "t")).upstashRedisRestUrl.isSome = true ∧
    (Health.Env.mk (some "") (some "u") (some "t")).upstashRedisRestToken.isSome = true ∧
    (Health.healthGET (Health.Env.mk (some "") (some "u") (some "t"))).1 = 503 ∧
    (Health.healthGET (Health.Env.mk (some "") (some "u") (some "t"))).2.status =
      "degraded" := by
  refine ⟨rfl, rfl, rfl, ?_, ?_⟩ <;> rfl

/-- C10 (amended): the handler, a pure function of configuration presence
that contacts neither dependency, returns 200 with status "ok" exactly
when the TinyFish API key and both Redis variables are set to non-empty
(truthy) values, and 503 with status "degraded" exactly otherwise. -/
theorem healthGET_characterization (env : Health.Env) :
    ((Health.healthGET env).1 = 200 ∧ (Health.healthGET env).2.status = "ok" ↔
      Health.truthy env.tinyfishApiKey = true ∧
      Health.truthy env.upstashRedisRestUrl = true ∧
      Health.truthy env.upstashRedisRestToken = true) ∧
    ((Health.healthGET env).1 = 503 ∧
        (Health.healthGET env).2.status = "degraded" ↔
      ¬(Health.truthy env.tinyfishApiKey = true ∧
        Health.truthy env.upstashRedisRestUrl = true ∧
        Health.truthy env.upstashRedisRestToken = true)) := by
  rcases h1 : Health.truthy env.tinyfishApiKey <;>
    rcases h2 : Health.truthy env.upstashRedisRestUrl <;>
      rcases h3 : Health.truthy env.upstashRedisRestToken <;>
        simp [Health.healthGET, h1, h2, h3]

/-- Membership after sorted insertion comes from the new pair or the old
list. -/
theorem zinsert_mem {α : Type} (x b : ℕ × α) (l : List (ℕ × α))
    (h : b ∈ Analytics.zinsert x l) : b = x ∨ b ∈ l := by
  induction l with
  | nil => simpa [Analytics.zinsert] using h
  | cons y ys ih =>
    rw [Analytics.zinsert] at h
    by_cases hxy : x.1 < y.1
    · rw [if_pos hxy] at h
      rcases List.mem_cons.mp h with h | h
      · exact Or.inl h
      · exact Or.inr h
    · rw [if_neg hxy] at h
      rcases List.mem_cons.mp h with h | h
      · exact Or.inr (h ▸ List.mem_cons_self _ _)
      · rcases ih h with h | h
        · exact Or.inl h
        · exact Or.inr (List.mem_cons_of_mem _ h)

/-- Sorted insertion preserves ascending score order. -/
theorem zinsert_sorted {α : Type} (x : ℕ × α) (l : List (ℕ × α))
    (h : l.Sorted (fun a b => a.1 ≤ b.1)) :
    (Analytics.zinsert x l).Sorted (fun a b => a.1 ≤ b.1) := by
  induction l with
  | nil => simp [Analytics.zinsert]
  | cons y ys ih =>
    rw [List.sorted_cons] at h
    by_cases hxy : x.1 < y.1
    · rw [Analytics.zinsert, if_pos hxy, List.sorted_cons]
      refine ⟨?_, List.sorted_cons.mpr h⟩
      intro b hb
      rcases List.mem_cons.mp hb with rfl | hb
      · exact le_of_lt hxy
      · exact le_trans (le_of_lt hxy) (h.1 b hb)
    · rw [Analytics.zinsert, if_neg hxy, List.sorted_cons]
      refine ⟨?_, ih h.2⟩
      intro b hb
      rcases zinsert_mem x b ys hb with rfl | hb
      · exact Nat.le_of_not_lt hxy
      · exact h.1 b hb

/-- The `ZADD` model preserves ascending score order. -/
theorem zadd_sorted {α : Type} [DecidableEq α] (l : List (ℕ × α)) (s : ℕ)
    (m : α) (h : l.Sorted (fun a b => a.1 ≤ b.1)) :
    (Analytics.zadd l s m).Sorted (fun a b => a.1 ≤ b.1) :=
  zinsert_sorted _ _ (List.Pairwise.filter _ h)

/-- C3: every `recordScanEvent` write leaves at most 100 response-time
samples and at most 50 recent scans; a write against a full response-time
list keeps the new sample and drops exactly the oldest (last) one, and
the recent-scan log keeps a suffix of the score-ordered inserted set, so
on a sorted store every evicted entry has a score no newer than every
kept one. -/
theorem recordScanEvent_bounds (st : Analytics.AnalyticsState)
    (e : Analytics.ScanEvent) :
    (Analytics.applyEvent st e).responseTimes.length ≤ 100 ∧
    (Analytics.applyEvent st e).recentScans.length ≤ 50 ∧
    (st.responseTimes.length = 100 →
      (Analytics.applyEvent st e).responseTimes =
        some e.responseTime :: st.responseTimes.dropLast) ∧
    (Analytics.applyEvent st e).recentScans <:+
      Analytics.zadd st.recentScans e.timestamp (.valid e) ∧
    (st.recentScans.Sorted (fun a b => a.1 ≤ b.1) →
      ∀ p ∈ (Analytics.zadd st.recentScans e.timestamp (.valid e)).take
          ((Analytics.zadd st.recentScans e.timestamp (.valid e)).length - 50),
        ∀ q ∈ (Analytics.applyEvent st e).recentScans, p.1 ≤ q.1) := by
  refine ⟨?_, ?_, ?_, ?_, ?_⟩
  · simp only [Analytics.applyEvent, List.length_take]
    exact min_le_left _ _
  · simp only [Analytics.applyEvent, Analytics.zremrangebyrankTo50,
      List.length_drop]
    omega
  · intro h
    simp only [Analytics.applyEvent]
    rw [show (100 : ℕ) = 99 + 1 from rfl, List.take_succ_cons,
      List.dropLast_eq_take, h]
  · simp only [Analytics.applyEvent, Analytics.zremrangebyrankTo50]
    exact List.drop_suffix _ _
  · intro hsorted p hp q hq
    have h2 := zadd_sorted st.recentScans e.timestamp (.valid e) hsorted
    set l2 := Analytics.zadd st.recentScans e.timestamp (.valid e) with hl2
    have hsplit : l2.take (l2.length - 50) ++ l2.drop (l2.length - 50) = l2 :=
      List.take_append_drop _ _
    have hpar := List.pairwise_append.mp (hsplit ▸ h2)
    have hq2 : q ∈ l2.drop (l2.length - 50) := by
      simpa [Analytics.applyEvent, Analytics.zremrangebyrankTo50] using hq
    exact hpar.2.2 p hp q hq2

/-- C3 witness: against a store holding 100 samples and 50 recent scans,
the new sample is kept and the oldest dropped, and an evicted recent scan
is older than a kept one. -/
theorem recordScanEvent_bounds_witness :
    (Analytics.applyEvent Analytics.fullState Analytics.sampleEventA).responseTimes =
      some Analytics.sampleEventA.responseTime ::
        Analytics.fullState.responseTimes.dropLast ∧
    ((0 : ℕ), Analytics.REntry.invalid "0").1 ≤
      ((1 : ℕ), Analytics.REntry.valid Analytics.sampleEventA).1 :=
  ⟨(recordScanEvent_bounds Analytics.fullState Analytics.sampleEventA).2.2.1 rfl,
   (recordScanEvent_bounds Analytics.fullState Analytics.sampleEventA).2.2.2.2
     (by decide) (0, .invalid "0") (by decide)
     (1, .valid Analytics.sampleEventA) (by decide)⟩

/-- C2 counterexample: on a store with 2 scans (1 success), 1 cache hit
and 1 miss, one stored 2.5 ms sample, and a single empty-named SKU at top
score, the returned success rate is 50 (the percentage, rounded), not the
ratio 1/2; the cache hit rate is 50, not 1/2; the average response time is
3 (rounded), not the mean 5/2; and the empty-named SKU is dropped from the
popular list instead of being its top entry. -/
theorem getAnalyticsStats_counterexample :
    (Analytics.getAnalyticsStats (.ok Analytics.mixedState)).successRate = 50 ∧
    (Analytics.mixedState.scanSuccess : ℚ) /
      (Analytics.mixedState.scanCount : ℚ) = 1/2 ∧
    ¬((Analytics.getAnalyticsStats (.ok Analytics.mixedState)).successRate
        = 1/2) ∧
    (Analytics.getAnalyticsStats (.ok Analytics.mixedState)).cacheHitRate = 50 ∧
    ¬((Analytics.getAnalyticsStats (.ok Analytics.mixedState)).cacheHitRate
        = 1/2) ∧
    (Analytics.getAnalyticsStats (.ok Analytics.mixedState)).averageResponseTime
      = 3 ∧
    ¬((Analytics.getAnalyticsStats
        (.ok Analytics.mixedState)).averageResponseTime = 5/2) ∧
    (Analytics.getAnalyticsStats (.ok Analytics.mixedState)).popularSkus = [] ∧
    Analytics.mixedState.skuPopularity = [(5, "")] := by
  have hs : (Analytics.getAnalyticsStats
      (.ok Analytics.mixedState)).successRate = 50 := by
    show (Analytics.computeStats Analytics.mixedState).successRate = 50
    simp only [Analytics.computeStats, Analytics.mixedState]
    norm_num [jsRound]
  have hc : (Analytics.getAnalyticsStats
      (.ok Analytics.mixedState)).cacheHitRate = 50 := by
    show (Analytics.computeStats Analytics.mixedState).cacheHitRate = 50
    simp only [Analytics.computeStats, Analytics.mixedState]
    norm_num [jsRound]
  have ha : (Analytics.getAnalyticsStats
      (.ok Analytics.mixedState)).averageResponseTime = 3 := by
    show (Analytics.computeStats Analytics.mixedState).averageResponseTime = 3
    simp only [Analytics.computeStats, Analytics.mixedState]
    rw [show List.filterMap id (List.take 100 [some ((5:ℚ)/2)]) = [5/2] from rfl]
    norm_num [jsRound]
  refine ⟨hs, by norm_num [Analytics.mixedState], by rw [hs]; norm_num,
    hc, by rw [hc]; norm_num, ha, by rw [ha]; norm_num, ?_, rfl⟩
  show (Analytics.computeStats Analytics.mixedState).popularSkus = []
  simp only [Analytics.computeStats, Analytics.mixedState]
  rfl

/-- C2 (amended): over a well-formed store state, `getAnalyticsStats`
returns the success rate success/total × 100 rounded to one decimal (0
when total is 0); the cache hit rate hits/(hits+misses) × 100 rounded to
one decimal (0 when the denominator is 0); the average response time as
the mean of the numeric stored samples rounded to the nearest integer (0
when there are none, non-numeric samples discarded rather than crashing);
the top-10 SKUs with non-empty names ordered by popularity score
descending, every excluded score bounded by every included one; and at
most 50 recent activity entries ordered newest-first, every older stored
scan bounded by every returned entry. -/
theorem getAnalyticsStats_aggregates (st : Analytics.AnalyticsState)
    (hwf : Analytics.StateWF st) :
    (st.scanCount = 0 →
      (Analytics.getAnalyticsStats (.ok st)).successRate = 0) ∧
    (0 < st.scanCount →
      (Analytics.getAnalyticsStats (.ok st)).successRate =
        (jsRound ((st.scanSuccess : ℚ) / (st.scanCount : ℚ) * 100 * 10) : ℚ) / 10) ∧
    (st.cacheHits + st.cacheMisses = 0 →
      (Analytics.getAnalyticsStats (.ok st)).cacheHitRate = 0) ∧
    (0 < st.cacheHits + st.cacheMisses →
      (Analytics.getAnalyticsStats (.ok st)).cacheHitRate =
        (jsRound ((st.cacheHits : ℚ) /
          ((st.cacheHits + st.cacheMisses : ℕ) : ℚ) * 100 * 10) : ℚ) / 10) ∧
    ((st.responseTimes.take 100).filterMap id = [] →
      (Analytics.getAnalyticsStats (.ok st)).averageResponseTime = 0) ∧
    ((st.responseTimes.take 100).filterMap id ≠ [] →
      (Analytics.getAnalyticsStats (.ok st)).averageResponseTime =
        (jsRound (((st.responseTimes.take 100).filterMap id).sum /
          (((st.responseTimes.take 100).filterMap id).length : ℚ)) : ℚ)) ∧
    (Analytics.getAnalyticsStats (.ok st)).popularSkus.Sorted
      (fun a b => b.2 ≤ a.2) ∧
    (Analytics.getAnalyticsStats (.ok st)).popularSkus.length ≤ 10 ∧
    ((∀ p ∈ st.skuPopularity, p.2 ≠ "") →
      (Analytics.getAnalyticsStats (.ok st)).popularSkus =
        (st.skuPopularity.reverse.take 10).map (fun p => (p.2, p.1))) ∧
    (∀ a ∈ st.skuPopularity.reverse.take 10,
      ∀ b ∈ st.skuPopularity.reverse.drop 10, b.1 ≤ a.1) ∧
    (Analytics.getAnalyticsStats (.ok st)).recentActivity.Sorted
      (fun e e2 => e2.timestamp ≤ e.timestamp) ∧
    (Analytics.getAnalyticsStats (.ok st)).recentActivity.length ≤ 50 ∧
    (∀ e ∈ (Analytics.getAnalyticsStats (.ok st)).recentActivity,
      ∀ q ∈ st.recentScans.reverse.drop 50, q.1 ≤ e.timestamp) := by
  obtain ⟨hpop, hrec, hlink⟩ := hwf
  have hpop2 : st.skuPopularity.reverse.Pairwise (fun a b => b.1 ≤ a.1) :=
    List.pairwise_reverse.mpr hpop
  have hrec2 : st.recentScans.reverse.Pairwise (fun a b => b.1 ≤ a.1) :=
    List.pairwise_reverse.mpr hrec
  refine ⟨?_, ?_, ?_, ?_, ?_, ?_, ?_, ?_, ?_, ?_, ?_, ?_, ?_⟩
  · intro h
    show (Analytics.computeStats st).successRate = 0
    simp only [Analytics.computeStats, h]
    norm_num [jsRound_zero]
  · intro h
    show (Analytics.computeStats st).successRate = _
    simp only [Analytics.computeStats, if_pos h]
  · intro h
    show (Analytics.computeStats st).cacheHitRate = 0
    simp only [Analytics.computeStats, h]
    norm_num [jsRound_zero]
  · intro h
    show (Analytics.computeStats st).cacheHitRate = _
    simp only [Analytics.computeStats, if_pos h]
  · intro h
    show (Analytics.computeStats st).averageResponseTime = 0
    simp only [Analytics.computeStats, h]
    norm_num [jsRound_zero]
  · intro h
    show (Analytics.computeStats st).averageResponseTime = _
    have hlen : 0 < ((st.responseTimes.take 100).filterMap id).length :=
      List.length_pos.mpr h
    simp only [Analytics.computeStats, if_pos hlen]
  · show ((Analytics.computeStats st).popularSkus).Sorted _
    simp only [Analytics.computeStats]
    show List.Pairwise _ (List.map _ _)
    rw [List.pairwise_map]
    exact List.Pairwise.filter _
      (List.Pairwise.sublist (List.take_sublist 10 _) hpop2)
  · show ((Analytics.computeStats st).popularSkus).length ≤ 10
    simp only [Analytics.computeStats]
    rw [List.length_map]
    refine le_trans (List.length_filter_le _ _) ?_
    rw [List.length_take]
    exact min_le_left _ _
  · intro hne
    show ((Analytics.computeStats st).popularSkus) = _
    simp only [Analytics.computeStats]
    congr 1
    rw [List.filter_eq_self]
    intro a ha
    have ham : a ∈ st.skuPopularity :=
      List.mem_reverse.mp ((List.take_sublist 10 _).subset ha)
    exact decide_eq_true (hne a ham)
  · intro a ha b hb
    have hsplit :
        st.skuPopularity.reverse.take 10 ++ st.skuPopularity.reverse.drop 10 =
          st.skuPopularity.reverse := List.take_append_drop _ _
    exact (List.pairwise_append.mp (hsplit ▸ hpop2)).2.2 a ha b hb
  · show ((Analytics.computeStats st).recentActivity).Sorted _
    simp only [Analytics.computeStats]
    have r2 : (st.recentScans.reverse.take 50).Pairwise (fun a b => b.1 ≤ a.1) :=
      List.Pairwise.sublist (List.take_sublist 50 _) hrec2
    have r3 : (st.recentScans.reverse.take 50).Pairwise
        (fun a b => ∀ e ∈ Analytics.entryEvent a.2,
          ∀ e2 ∈ Analytics.entryEvent b.2, e2.timestamp ≤ e.timestamp) := by
      refine List.Pairwise.imp_of_mem ?_ r2
      intro a b ha hb hab e he e2 he2
      have ham : a ∈ st.recentScans :=
        List.mem_reverse.mp ((List.take_sublist 50 _).subset ha)
      have hbm : b ∈ st.recentScans :=
        List.mem_reverse.mp ((List.take_sublist 50 _).subset hb)
      have hae : a.1 = e.timestamp := by
        have := hlink a ham
        cases hsnd : a.2 with
        | valid e0 =>
          simp only [Analytics.entryWF.eq_def, hsnd] at this
          simp only [Analytics.entryEvent.eq_def, hsnd, Option.mem_def,
            Option.some.injEq] at he
          subst he
          exact beq_iff_eq.mp this
        | invalid s =>
          simp [Analytics.entryEvent.eq_def, hsnd] at he
      have hbe : b.1 = e2.timestamp := by
        have := hlink b hbm
        cases hsnd : b.2 with
        | valid e0 =>
          simp only [Analytics.entryWF.eq_def, hsnd] at this
          simp only [Analytics.entryEvent.eq_def, hsnd, Option.mem_def,
            Option.some.injEq] at he2
          subst he2
          exact beq_iff_eq.mp this
        | invalid s =>
          simp [Analytics.entryEvent.eq_def, hsnd] at he2
      rw [← hae, ← hbe]
      exact hab
    show List.Pairwise _ (List.filterMap _ _)
    exact List.Pairwise.filterMap _ (fun a b r => r) r3
  · show ((Analytics.computeStats st).recentActivity).length ≤ 50
    simp only [Analytics.computeStats]
    refine le_trans (List.length_filterMap_le _ _) ?_
    rw [List.length_take]
    exact min_le_left _ _
  · intro e he q hq
    have he2 : e ∈ (st.recentScans.reverse.take 50).filterMap
        (fun p => Analytics.entryEvent p.2) := he
    rw [List.mem_filterMap] at he2
    obtain ⟨a, ha, hae⟩ := he2
    have hsplit :
        st.recentScans.reverse.take 50 ++ st.recentScans.reverse.drop 50 =
          st.recentScans.reverse := List.take_append_drop _ _
    have hqa : q.1 ≤ a.1 :=
      (List.pairwise_append.mp (hsplit ▸ hrec2)).2.2 a ha q hq
    have ham : a ∈ st.recentScans :=
      List.mem_reverse.mp ((List.take_sublist 50 _).subset ha)
    have hts : a.1 = e.timestamp := by
      have := hlink a ham
      cases hsnd : a.2 with
      | valid e0 =>
        simp only [Analytics.entryWF.eq_def, hsnd] at this
        simp only [Analytics.entryEvent.eq_def, hsnd, Option.some.injEq] at hae
        subst hae
        exact beq_iff_eq.mp this
      | invalid s =>
        simp [Analytics.entryEvent.eq_def, hsnd] at hae
    rw [← hts]
    exact hqa

/-- C2 witness: the aggregate formulas instantiated at a concrete
well-formed two-event state. -/
theorem getAnalyticsStats_aggregates_witness :
    (Analytics.getAnalyticsStats (.ok Analytics.sampleState)).successRate =
      (jsRound ((Analytics.sampleState.scanSuccess : ℚ) /
        (Analytics.sampleState.scanCount : ℚ) * 100 * 10) : ℚ) / 10 ∧
    (Analytics.getAnalyticsStats (.ok Analytics.sampleState)).popularSkus =
      (Analytics.sampleState.skuPopularity.reverse.take 10).map
        (fun p => (p.2, p.1)) ∧
    (Analytics.getAnalyticsStats
        (.ok Analytics.sampleState)).averageResponseTime =
      (jsRound
        (((Analytics.sampleState.responseTimes.take 100).filterMap id).sum /
          (((Analytics.sampleState.responseTimes.take 100).filterMap
            id).length : ℚ)) : ℚ) :=
  ⟨(getAnalyticsStats_aggregates Analytics.sampleState
     ⟨by decide, by decide, by decide⟩).2.1 (by decide),
   (getAnalyticsStats_aggregates Analytics.sampleState
     ⟨by decide, by decide, by decide⟩).2.2.2.2.2.2.2.2.1 (by decide),
   (getAnalyticsStats_aggregates Analytics.sampleState
     ⟨by decide, by decide, by decide⟩).2.2.2.2.2.1 (by decide)⟩

/-- C5: `withRetry` with `maxAttempts = 3` against an operation failing
with a retryable error on every attempt invokes the operation exactly 3
times and propagates the third attempt's own error verbatim, while an
operation whose first failure is non-retryable is invoked exactly once and
that error propagates immediately. -/
theorem withRetry_bounds :
    (∀ f : ℕ → String,
      Retry.withRetry
        (fun n => (.error (.retryable (f n)) : Except Retry.RetryErr Unit)) 3 =
        (.error (.retryable (f 3)), 3)) ∧
    (∀ (op : ℕ → Except Retry.RetryErr Unit) (m : String),
      op 1 = .error (.nonRetryable m) →
      Retry.withRetry op 3 = (.error (.nonRetryable m), 1)) := by
  constructor
  · intro f
    rfl
  · intro op m h
    simp [Retry.withRetry, Retry.withRetryGo, h, Retry.RetryErr.isRetryable]

/-- C5 witness: the two retry scenarios at concrete operations. -/
theorem withRetry_bounds_witness :
    Retry.withRetry
      (fun n => (.error (.retryable (toString n)) : Except Retry.RetryErr Unit)) 3 =
      (.error (.retryable (toString 3)), 3) ∧
    Retry.withRetry
      (fun _ => (.error (.nonRetryable "e") : Except Retry.RetryErr Unit)) 3 =
      (.error (.nonRetryable "e"), 1) :=
  ⟨withRetry_bounds.1 (fun n => toString n),
   withRetry_bounds.2 (fun _ => .error (.nonRetryable "e")) "e" rfl⟩

/-- A run of `n` consecutive failures at time 0 from the initial breaker:
CLOSED with `n` consecutive failures below the threshold, OPEN (opened at
time 0, counter clamped at the threshold) from the threshold on. -/
theorem failN_eq (cfg : CircuitBreaker.Config) (hf : 0 < cfg.failureThreshold)
    (hr : 0 < cfg.recoveryTimeout) (k : ℕ) :
    CircuitBreaker.failN cfg k =
      if k < cfg.failureThreshold then
        { state := .Closed, consecutiveFailures := k, consecutiveSuccesses := 0,
          openedAt := 0, totalCalls := k, totalFailures := k }
      else
        { state := .Open, consecutiveFailures := cfg.failureThreshold,
          consecutiveSuccesses := 0, openedAt := 0, totalCalls := k,
          totalFailures := cfg.failureThreshold } := by
  induction k with
  | zero =>
    rw [if_pos hf]
    rfl
  | succ n ih =>
    rw [CircuitBreaker.failN, ih]
    by_cases h1 : n < cfg.failureThreshold
    · rw [if_pos h1]
      by_cases h2 : n + 1 < cfg.failureThreshold
      · rw [if_pos h2]
        simp only [CircuitBreaker.execCall, CircuitBreaker.bumpMetrics,
          CircuitBreaker.afterInvoke]
        rw [if_neg (by omega : ¬ cfg.failureThreshold ≤ n + 1)]
        simp
      · rw [if_neg h2]
        have h3 : cfg.failureThreshold = n + 1 := by omega
        simp only [CircuitBreaker.execCall, CircuitBreaker.bumpMetrics,
          CircuitBreaker.afterInvoke]
        rw [if_pos (by omega : cfg.failureThreshold ≤ n + 1), h3]
        simp
    · rw [if_neg h1, if_neg (by omega : ¬ n + 1 < cfg.failureThreshold)]
      simp only [CircuitBreaker.execCall]
      rw [if_neg (by omega : ¬ cfg.recoveryTimeout ≤ 0 - 0)]

/-- In HALF_OPEN with `c` consecutive successes, a run of
`successThreshold − c` further uninterrupted successes closes the breaker
and resets both counters. -/
theorem halfOpen_success_run (cfg : CircuitBreaker.Config) (ts : List ℕ) :
    ∀ cb : CircuitBreaker.Breaker, cb.state = .HalfOpen →
      cb.consecutiveSuccesses + ts.length = cfg.successThreshold →
      ts ≠ [] →
      (CircuitBreaker.runCalls cfg cb (ts.map (fun t => (t, true)))).state =
          .Closed ∧
      (CircuitBreaker.runCalls cfg cb
          (ts.map (fun t => (t, true)))).consecutiveFailures = 0 ∧
      (CircuitBreaker.runCalls cfg cb
          (ts.map (fun t => (t, true)))).consecutiveSuccesses = 0 := by
  induction ts with
  | nil => intro cb _ _ hne; exact absurd rfl hne
  | cons t rest ih =>
    intro cb hstate hsum _
    obtain ⟨st, cf, cs, oa, tc, tf⟩ := cb
    simp only at hstate hsum
    subst hstate
    rw [List.map_cons, CircuitBreaker.runCalls]
    simp only [CircuitBreaker.execCall, CircuitBreaker.bumpMetrics,
      CircuitBreaker.afterInvoke]
    by_cases hdone : cfg.successThreshold ≤ cs + 1
    · have hrest : rest = [] := by
        have : rest.length = 0 := by simp at hsum; omega
        exact List.length_eq_zero.mp this
      rw [if_pos hdone, hrest]
      exact ⟨rfl, rfl, rfl⟩
    · rw [if_neg hdone]
      refine ih _ rfl ?_ ?_
      · simp at hsum ⊢
        omega
      · have : 0 < rest.length := by simp at hsum; omega
        exact List.length_pos.mp this

/-- C4: the breaker's step relation — from CLOSED, `N ≥ failureThreshold`
consecutive failures reach OPEN exactly at the threshold and never
before; while OPEN within the recovery window every call is rejected with
the distinct circuit-open outcome without invoking the wrapped operation
and without changing the machine state; once OPEN has lasted at least
`recoveryTimeout` the next call runs with the state moved to HALF_OPEN
before it executes (so its failure reopens the breaker at the current
time, its success counts toward the success threshold); and
`successThreshold` uninterrupted successes in HALF_OPEN close the breaker
with both consecutive counters reset to 0. -/
theorem circuitBreaker_machine (cfg : CircuitBreaker.Config)
    (hf : 0 < cfg.failureThreshold) (hr : 0 < cfg.recoveryTimeout)
    (hs : 0 < cfg.successThreshold) :
    (∀ k, k < cfg.failureThreshold →
       (CircuitBreaker.failN cfg k).state = .Closed) ∧
    (∀ k, cfg.failureThreshold ≤ k →
       (CircuitBreaker.failN cfg k).state = .Open ∧
       (CircuitBreaker.failN cfg k).openedAt = 0) ∧
    (∀ (cb : CircuitBreaker.Breaker) (now : ℕ) (s : Bool),
       cb.state = .Open → now - cb.openedAt < cfg.recoveryTimeout →
       CircuitBreaker.execCall cfg cb now s =
         ({ cb with totalCalls := cb.totalCalls + 1 },
          CircuitBreaker.Outcome.rejected, false)) ∧
    (∀ (cb : CircuitBreaker.Breaker) (now : ℕ) (s : Bool),
       cb.state = .Open → cfg.recoveryTimeout ≤ now - cb.openedAt →
       (CircuitBreaker.execCall cfg cb now s).2.2 = true ∧
       (s = false → (CircuitBreaker.execCall cfg cb now s).1.state = .Open ∧
          (CircuitBreaker.execCall cfg cb now s).1.openedAt = now) ∧
       (s = true → (CircuitBreaker.execCall cfg cb now s).1.state =
          (if cfg.successThreshold ≤ 1 then .Closed else .HalfOpen))) ∧
    (∀ (cb : CircuitBreaker.Breaker) (ts : List ℕ),
       cb.state = .HalfOpen → cb.consecutiveSuccesses = 0 →
       ts.length = cfg.successThreshold →
       (CircuitBreaker.runCalls cfg cb (ts.map (fun t => (t, true)))).state =
           .Closed ∧
       (CircuitBreaker.runCalls cfg cb
           (ts.map (fun t => (t, true)))).consecutiveFailures = 0 ∧
       (CircuitBreaker.runCalls cfg cb
           (ts.map (fun t => (t, true)))).consecutiveSuccesses = 0) := by
  refine ⟨?_, ?_, ?_, ?_, ?_⟩
  · intro k hk
    rw [failN_eq cfg hf hr k, if_pos hk]
  · intro k hk
    rw [failN_eq cfg hf hr k, if_neg (by omega : ¬ k < cfg.failureThreshold)]
    exact ⟨rfl, rfl⟩
  · intro cb now s hstate hwin
    obtain ⟨st, cf, cs, oa, tc, tf⟩ := cb
    simp only at hstate hwin
    subst hstate
    simp only [CircuitBreaker.execCall]
    rw [if_neg (by omega : ¬ cfg.recoveryTimeout ≤ now - oa)]
  · intro cb now s hstate hdue
    obtain ⟨st, cf, cs, oa, tc, tf⟩ := cb
    simp only at hstate hdue
    subst hstate
    simp only [CircuitBreaker.execCall]
    rw [if_pos hdue]
    refine ⟨rfl, ?_, ?_⟩
    · intro hsf
      subst hsf
      simp only [CircuitBreaker.bumpMetrics, CircuitBreaker.afterInvoke]
      exact ⟨rfl, rfl⟩
    · intro hst
      subst hst
      simp only [CircuitBreaker.bumpMetrics, CircuitBreaker.afterInvoke]
      by_cases h1 : cfg.successThreshold ≤ 0 + 1
      · rw [if_pos (by omega : cfg.successThreshold ≤ 0 + 1),
          if_pos (by omega : cfg.successThreshold ≤ 1)]
        simp
      · rw [if_neg (by omega : ¬ cfg.successThreshold ≤ 0 + 1),
          if_neg (by omega : ¬ cfg.successThreshold ≤ 1)]
        simp
  · intro cb ts hstate hcs hlen
    refine halfOpen_success_run cfg ts cb hstate (by omega) ?_
    have : 0 < ts.length := by omega
    exact List.length_pos.mp this

/-- C4 witness: the machine at the default configuration — CLOSED after 2
failures, OPEN after 3, a rejected non-invoking call while OPEN, reopening
on a HALF_OPEN trial failure after the recovery timeout, and closing after
2 uninterrupted HALF_OPEN successes. -/
theorem circuitBreaker_machine_witness :
    (CircuitBreaker.failN {} 2).state = .Closed ∧
    (CircuitBreaker.failN {} 3).state = .Open ∧
    CircuitBreaker.execCall {} ⟨.Open, 3, 0, 0, 3, 3⟩ 5 false =
      (⟨.Open, 3, 0, 0, 4, 3⟩, .rejected, false) ∧
    (CircuitBreaker.execCall {} ⟨.Open, 3, 0, 0, 4, 3⟩ 30000 false).1.state =
      .Open ∧
    (CircuitBreaker.runCalls {} ⟨.HalfOpen, 3, 0, 0, 5, 3⟩
        ([30000, 30001].map (fun t => (t, true)))).state = .Closed :=
  ⟨(circuitBreaker_machine {} (by decide) (by decide) (by decide)).1 2 (by decide),
   ((circuitBreaker_machine {} (by decide) (by decide) (by decide)).2.1 3
     (by decide)).1,
   (circuitBreaker_machine {} (by decide) (by decide) (by decide)).2.2.1
     ⟨.Open, 3, 0, 0, 3, 3⟩ 5 false rfl (by decide),
   (((circuitBreaker_machine {} (by decide) (by decide) (by decide)).2.2.2.1
     ⟨.Open, 3, 0, 0, 4, 3⟩ 30000 false rfl (by decide)).2.1 rfl).1,
   ((circuitBreaker_machine {} (by decide) (by decide) (by decide)).2.2.2.2
     ⟨.HalfOpen, 3, 0, 0, 5, 3⟩ [30000, 30001] rfl rfl (by decide)).1⟩

/-- A run of checks whose times all lie inside one window span behaves as
a pure counter: starting from a history of in-span timestamps, the i-th
check is admitted exactly while the total stays below `maxRequests`. -/
theorem runChecks_span (w m T : ℕ) :
    ∀ (ts st : List ℕ), (∀ t ∈ ts, T ≤ t ∧ t ≤ T + w) →
      (∀ t ∈ st, T ≤ t ∧ t ≤ T + w) →
      (RateLimiter.runChecks w m st ts).1 =
        (List.range ts.length).map (fun i => decide (st.length + i < m)) := by
  intro ts
  induction ts with
  | nil => intro st _ _; rfl
  | cons now rest ih =>
    intro st hts hst
    have hnow := hts now (List.mem_cons_self _ _)
    have hfil : st.filter (fun t => decide (now - w ≤ t)) = st := by
      rw [List.filter_eq_self]
      intro a ha
      have := hst a ha
      simp only [decide_eq_true_eq]
      omega
    rw [RateLimiter.runChecks]
    simp only [RateLimiter.isAllowed, hfil]
    rw [List.length_cons, List.range_succ_eq_map, List.map_cons, List.map_map]
    by_cases hlen : st.length < m
    · rw [if_pos hlen]
      simp only [List.cons.injEq]
      refine ⟨?_, ?_⟩
      · simp only [Nat.add_zero]
        exact (decide_eq_true hlen).symm
      · rw [ih (now :: st)
          (fun t ht => hts t (List.mem_cons_of_mem _ ht))
          (fun t ht => by
            rcases List.mem_cons.mp ht with rfl | ht
            · exact hnow
            · exact hst t ht)]
        apply List.map_congr_left
        intro a _
        simp only [Function.comp_apply, List.length_cons]
        rw [decide_eq_decide]
        omega
    · rw [if_neg hlen]
      simp only [List.cons.injEq]
      refine ⟨?_, ?_⟩
      · simp only [Nat.add_zero]
        exact (decide_eq_false hlen).symm
      · rw [ih st (fun t ht => hts t (List.mem_cons_of_mem _ ht)) hst]
        apply List.map_congr_left
        intro a _
        simp only [Function.comp_apply]
        rw [decide_eq_decide]
        omega

/-- C6: sliding-window admission — for any client history run from empty
whose check times all lie within one `windowMs` span, exactly the first
`maxRequests` checks are admitted and every further check in the span
(in particular the `(maxRequests+1)`-th) is rejected; and once every
recorded timestamp is older than `now − windowMs`, the next check is
admitted again. -/
theorem rateLimiter_window (w m T : ℕ) :
    (∀ ts : List ℕ, (∀ t ∈ ts, T ≤ t ∧ t ≤ T + w) →
       (RateLimiter.runChecks w m [] ts).1 =
         (List.range ts.length).map (fun i => decide (i < m))) ∧
    (∀ (st : List ℕ) (now : ℕ), 0 < m → (∀ t ∈ st, t < now - w) →
       (RateLimiter.isAllowed w m st now).1 = true) := by
  constructor
  · intro ts hts
    have h := runChecks_span w m T ts [] hts (by intro t ht; cases ht)
    simpa using h
  · intro st now hm hst
    have hfil : st.filter (fun t => decide (now - w ≤ t)) = [] := by
      rw [List.filter_eq_nil_iff]
      intro a ha
      have := hst a ha
      simp only [decide_eq_true_eq]
      omega
    simp only [RateLimiter.isAllowed]
    rw [hfil]
    simp [hm]

/-- C6 witness: with the default window of 60 s and limit 5, six
same-instant checks admit exactly the first five, and a check one
millisecond after the window has passed is admitted again. -/
theorem rateLimiter_window_witness :
    (RateLimiter.runChecks 60000 5 [] [0, 0, 0, 0, 0, 0]).1 =
      [true, true, true, true, true, false] ∧
    (RateLimiter.isAllowed 60000 5 [0, 0, 0, 0, 0] 60001).1 = true :=
  ⟨((rateLimiter_window 60000 5 0).1 [0, 0, 0, 0, 0, 0] (by decide)).trans
     (by decide),
   (rateLimiter_window 60000 5 0).2 [0, 0, 0, 0, 0] 60001 (by decide) (by decide)⟩

/-- C7: change detection — an absent previous scan returns the current
scan unchanged; against a previous scan every current vendor is annotated
independently; a vendor matched by name whose prices are both non-null
(and previous price non-zero) carries a PriceChange with
`delta = newPrice − oldPrice`, `percentChange = delta / oldPrice × 100`
and `isSignificant ↔ abs delta > 1 or abs percentChange > 2`; and on the
spec's examples 100 → 103.50 is significant while 100 → 100.50 is not. -/
theorem detectChanges_correct :
    (∀ c : ChangeDetector.ScanResult, ChangeDetector.detectChanges c none = c) ∧
    (∀ c prev : ChangeDetector.ScanResult,
      (ChangeDetector.detectChanges c (some prev)).vendors =
        c.vendors.map (ChangeDetector.annotateVendor prev)) ∧
    (∀ (prev : ChangeDetector.ScanResult) (v p : ChangeDetector.VendorResult)
        (oldP newP : ℚ),
      prev.vendors.find? (fun q => q.name = v.name) = some p →
      p.price = some oldP → v.price = some newP → oldP ≠ 0 →
      (ChangeDetector.annotateVendor prev v).changes = some
        { price := some
            { delta := newP - oldP
              percentChange := some ((newP - oldP) / oldP * 100)
              isSignificant := decide (1 < |newP - oldP|) ||
                decide (2 < |(newP - oldP) / oldP * 100|) }
          stock := if p.inStock ≠ v.inStock then
              some { changed := true, previous := p.inStock,
                     current := v.inStock }
            else none }) ∧
    ChangeDetector.computePriceChange 100 (207/2) =
      { delta := 7/2, percentChange := some (7/2), isSignificant := true } ∧
    ChangeDetector.computePriceChange 100 (201/2) =
      { delta := 1/2, percentChange := some (1/2), isSignificant := false } := by
  refine ⟨fun c => rfl, fun c prev => rfl, ?_, ?_, ?_⟩
  · intro prev v p oldP newP hfind hp hv hz
    rw [ChangeDetector.annotateVendor, hfind]
    simp only [hp, hv, ChangeDetector.computePriceChange, if_neg hz,
      Option.isNone_some, Bool.false_and, Bool.if_false_left]
    simp
  · simp only [ChangeDetector.computePriceChange,
      if_neg (by norm_num : ¬ (100:ℚ) = 0), ChangeDetector.PriceChange.mk.injEq]
    refine ⟨by norm_num, by norm_num, ?_⟩
    rw [show (207:ℚ)/2 - 100 = 7/2 by norm_num]
    rw [show ((7:ℚ)/2) / 100 * 100 = 7/2 by norm_num]
    rw [abs_of_nonneg (by norm_num : (0:ℚ) ≤ 7/2)]
    rw [decide_eq_true (by norm_num : (1:ℚ) < 7/2),
      decide_eq_true (by norm_num : (2:ℚ) < 7/2)]
    rfl
  · simp only [ChangeDetector.computePriceChange,
      if_neg (by norm_num : ¬ (100:ℚ) = 0), ChangeDetector.PriceChange.mk.injEq]
    refine ⟨by norm_num, by norm_num, ?_⟩
    rw [show (201:ℚ)/2 - 100 = 1/2 by norm_num]
    rw [show ((1:ℚ)/2) / 100 * 100 = 1/2 by norm_num]
    rw [abs_of_nonneg (by norm_num : (0:ℚ) ≤ 1/2)]
    rw [decide_eq_false (by norm_num : ¬ (1:ℚ) < 1/2),
      decide_eq_false (by norm_num : ¬ (2:ℚ) < 1/2)]
    rfl

/-- C7 witness: the Pimoroni vendor moving from 100 to 103.50 carries
delta 3.5, percent change 3.5 and a significant flag, with no stock
change. -/
theorem detectChanges_correct_witness :
    (ChangeDetector.annotateVendor ChangeDetector.prevScan
        ChangeDetector.vendorAt103p5).changes = some
      { price := some { delta := 7/2, percentChange := some (7/2),
                        isSignificant := true }
        stock := none } := by
  have h := detectChanges_correct.2.2.1 ChangeDetector.prevScan
    ChangeDetector.vendorAt103p5 ChangeDetector.vendorAt100 100 (207/2)
    rfl rfl rfl (by norm_num)
  rw [h]
  rw [show (207:ℚ)/2 - 100 = 7/2 by norm_num]
  rw [show ((7:ℚ)/2) / 100 * 100 = 7/2 by norm_num]
  rw [abs_of_nonneg (by norm_num : (0:ℚ) ≤ 7/2)]
  rw [decide_eq_true (by norm_num : (1:ℚ) < 7/2),
    decide_eq_true (by norm_num : (2:ℚ) < 7/2)]
  simp [ChangeDetector.vendorAt100, ChangeDetector.vendorAt103p5]

/-- C8: two concurrent `acquire(sku)` calls against an empty lock store —
one atomic set-if-absent step each, in either interleaving order —
result in exactly one of the two callers obtaining the lock. -/
theorem acquire_mutual_exclusion (sku : String) (aFirst : Bool) :
    ((ScanLock.twoAcquires sku aFirst).1 = true ∧
      (ScanLock.twoAcquires sku aFirst).2 = false) ∨
    ((ScanLock.twoAcquires sku aFirst).1 = false ∧
      (ScanLock.twoAcquires sku aFirst).2 = true) := by
  cases aFirst <;>
    simp [ScanLock.twoAcquires, ScanLock.acquire, ScanLock.setIfAbsent]
